import Mathlib

/-!
Shallow embedding of the base58 address/private-key layer
(`src/util/address.rs`) and the MTP helper
(`units/src/locktime/mtp_height.rs`) of this repository, with theorems
settling the specification claims about them.

Bytes are modelled as `Nat`; byte vectors as `List Nat`.
-/

/-- The `Network` enum (`network/constants.rs`): `Bitcoin` is the main
network ("Main" in the spec), `Testnet` the test network ("Test"). -/
inductive Network where
  | Bitcoin
  | Testnet
deriving DecidableEq

/-- The address-type enum `Type` of `src/util/address.rs` (`Type` is a
reserved word in Lean, so the name is expanded): `PubkeyHash` (P2PKH) or
`ScriptHash` (P2SH). -/
inductive AddressType where
  | PubkeyHash
  | ScriptHash
deriving DecidableEq

/-- Modelled from the spec: the `base58::Error` variants reachable from the
layout serializer (`util/base58.rs` itself is not among the provided
sources; the variants and their payloads are exactly the ones constructed
in `src/util/address.rs` and listed in the spec's error taxonomy). -/
inductive Base58Error where
  | InvalidLength (n : Nat)
  | InvalidVersion (bs : List Nat)
  | Other (msg : String)
deriving DecidableEq

/-- The message carried by the `Other` error that `Privkey::from_base58_layout`
returns when the secret bytes are rejected by the curve library (the spec's
`SecretKeyInvalid` condition). -/
def secretKeyOutOfRange : String := "Secret key out of range"

/-- The `Address` struct: address type, network, and the 20-byte
public-key/script hash. The `Hash160` newtype is outside the provided
sources; its 20 bytes are modelled directly as the byte list. -/
structure Address where
  ty : AddressType
  network : Network
  hash : List Nat
deriving DecidableEq

/-- `<Address as ToBase58>::base58_layout`: the version byte chosen by the
exhaustive match on `(network, ty)`, followed by the 20 hash bytes. -/
def Address.base58_layout (a : Address) : List Nat :=
  (match a.network, a.ty with
    | Network.Bitcoin, AddressType.PubkeyHash => 0
    | Network.Bitcoin, AddressType.ScriptHash => 5
    | Network.Testnet, AddressType.PubkeyHash => 111
    | Network.Testnet, AddressType.ScriptHash => 196)
  :: a.hash

/-- `<Address as FromBase58>::from_base58_layout`: reject lengths other than
21, dispatch on the first byte (the arms of the source's `match data[0]`),
and take bytes 1..21 as the hash. -/
def Address.from_base58_layout (data : List Nat) : Except Base58Error Address :=
  if data.length ≠ 21 then
    Except.error (Base58Error.InvalidLength data.length)
  else if data.headD 0 = 0 then
    Except.ok ⟨AddressType.PubkeyHash, Network.Bitcoin, data.tail⟩
  else if data.headD 0 = 5 then
    Except.ok ⟨AddressType.ScriptHash, Network.Bitcoin, data.tail⟩
  else if data.headD 0 = 111 then
    Except.ok ⟨AddressType.PubkeyHash, Network.Testnet, data.tail⟩
  else if data.headD 0 = 196 then
    Except.ok ⟨AddressType.ScriptHash, Network.Testnet, data.tail⟩
  else
    Except.error (Base58Error.InvalidVersion [data.headD 0])

/-- Modelled from the spec: the order of the secp256k1 curve group. The
external curve capability accepts a 32-byte secret exactly when its
big-endian value `s` satisfies `1 ≤ s < order` ("1 ≤ secret < curve order"
in the spec's data model). -/
def secp256k1Order : Nat :=
  0xFFFFFFFFFFFFFFFFFFFFFFFFFFFFFFFEBAAEDCE6AF48A03BBFD25E8CD0364141

/-- Big-endian value of a byte list. -/
def beNat (bs : List Nat) : Nat :=
  bs.foldl (fun acc b => acc * 256 + b) 0

/-- Modelled from the spec: success of `SecretKey::from_slice` of the
external secp256k1 crate on a 32-byte slice — the slice must encode a
valid scalar, i.e. a value in `[1, curve order)`. -/
def validScalar (bs : List Nat) : Bool :=
  decide (1 ≤ beNat bs ∧ beNat bs < secp256k1Order)

/-- The `Privkey` struct: compression flag, network, and the 32 secret-key
bytes (the external `SecretKey` is modelled by the bytes it wraps). -/
structure Privkey where
  compressed : Bool
  network : Network
  key : List Nat
deriving DecidableEq

/-- `Privkey::from_key`: pure field assembly. -/
def Privkey.from_key (network : Network) (sk : List Nat) (compressed : Bool) : Privkey :=
  { compressed := compressed, network := network, key := sk }

/-- `<Privkey as ToBase58>::base58_layout`: the version byte chosen by the
match on the network, then the secret bytes, then a trailing `1` byte
pushed only when `compressed`. -/
def Privkey.base58_layout (p : Privkey) : List Nat :=
  ((match p.network with
    | Network.Bitcoin => 128
    | Network.Testnet => 239)
  :: p.key) ++ (if p.compressed then [1] else [])

/-- `<Privkey as FromBase58>::from_base58_layout`: the length match (33 →
uncompressed, 34 → compressed, other → `InvalidLength`), then the
first-byte match (128 → Bitcoin, 239 → Testnet, other → `InvalidVersion`),
then validation of bytes 1..33 as a scalar (failure → the
`Other`/"secret key out of range" error). -/
def Privkey.from_base58_layout (data : List Nat) : Except Base58Error Privkey :=
  if data.length ≠ 33 ∧ data.length ≠ 34 then
    Except.error (Base58Error.InvalidLength data.length)
  else
    let compressed := data.length == 34
    if data.headD 0 ≠ 128 ∧ data.headD 0 ≠ 239 then
      Except.error (Base58Error.InvalidVersion [data.headD 0])
    else
      let network := if data.headD 0 = 128 then Network.Bitcoin else Network.Testnet
      let key := (data.drop 1).take 32
      if validScalar key then
        Except.ok { compressed := compressed, network := network, key := key }
      else
        Except.error (Base58Error.Other secretKeyOutOfRange)

/-- Modelled from the spec: the opcodes used by the two canonical script
templates (`blockdata/opcodes.rs` is outside the provided sources). -/
inductive Opcode where
  | OP_DUP
  | OP_HASH160
  | OP_EQUALVERIFY
  | OP_CHECKSIG
  | OP_EQUAL
deriving DecidableEq

/-- Modelled from the spec: a script element — an opcode, or a pushed data
slice. The spec's Script Builder is "a thin opcode-sequence assembler", so
a script is the emitted sequence of these elements. -/
inductive ScriptElem where
  | op (o : Opcode)
  | push (bs : List Nat)
deriving DecidableEq

/-- Modelled from the spec: `script::Builder::new` — an empty sequence. -/
def Builder.new : List ScriptElem := []

/-- Modelled from the spec: `Builder::push_opcode` appends an opcode. -/
def Builder.push_opcode (b : List ScriptElem) (o : Opcode) : List ScriptElem :=
  b ++ [ScriptElem.op o]

/-- Modelled from the spec: `Builder::push_slice` appends a data push. -/
def Builder.push_slice (b : List ScriptElem) (bs : List Nat) : List ScriptElem :=
  b ++ [ScriptElem.push bs]

/-- `Address::script_pubkey`: the match on `self.ty` emitting the P2PKH
template (`OP_DUP OP_HASH160 push(hash) OP_EQUALVERIFY OP_CHECKSIG`) or the
P2SH template (`OP_HASH160 push(hash) OP_EQUAL`); `into_script` is the
identity on the emitted sequence in this model. -/
def Address.script_pubkey (a : Address) : List ScriptElem :=
  let script := Builder.new
  match a.ty with
  | AddressType.PubkeyHash =>
      let script := Builder.push_opcode script Opcode.OP_DUP
      let script := Builder.push_opcode script Opcode.OP_HASH160
      let script := Builder.push_slice script a.hash
      let script := Builder.push_opcode script Opcode.OP_EQUALVERIFY
      let script := Builder.push_opcode script Opcode.OP_CHECKSIG
      script
  | AddressType.ScriptHash =>
      let script := Builder.push_opcode script Opcode.OP_HASH160
      let script := Builder.push_slice script a.hash
      let script := Builder.push_opcode script Opcode.OP_EQUAL
      script

/-- `Address::from_key`: kind is always `PubkeyHash`; the hash is
`Hash160::from_data` of the serialized public key. The external
capabilities (`PublicKey::serialize_vec` of secp256k1, keyed by the
compression flag, and the hash provider `Hash160::from_data`) are passed
as function arguments over an abstract public-key type `PK`. -/
def Address.from_key {PK : Type} (hash160_from_data : List Nat → List Nat)
    (serialize_vec : PK → Bool → List Nat)
    (network : Network) (pk : PK) (compressed : Bool) : Address :=
  { ty := AddressType.PubkeyHash, network := network,
    hash := hash160_from_data (serialize_vec pk compressed) }

/-- The `Error` enum of `src/util/address.rs`: wraps an error of the
external secp256k1 crate (abstract type `E`). The spec names this
condition `CurveDerivationFailed`. -/
inductive AddressError (E : Type) where
  | Secp (e : E)
deriving DecidableEq

/-- `Privkey::to_address`: derive the public key from the secret via the
external capability `PublicKey::from_secret_key` (passed as a function);
on failure wrap the curve error in `Error::Secp`, on success build the
address with `Address::from_key` on `self.network` and `self.compressed`. -/
def Privkey.to_address {PK E : Type} (from_secret_key : List Nat → Except E PK)
    (serialize_vec : PK → Bool → List Nat) (hash160_from_data : List Nat → List Nat)
    (p : Privkey) : Except (AddressError E) Address :=
  match from_secret_key p.key with
  | Except.error e => Except.error (AddressError.Secp e)
  | Except.ok key =>
      Except.ok (Address.from_key hash160_from_data serialize_vec p.network key p.compressed)

/-- The `MtpAndHeight` struct of `units/src/locktime/mtp_height.rs`.
`BlockTime` (a `u32` newtype ordered numerically) and `Height` (a `u16`
newtype), defined outside the provided sources, are modelled as naturals. -/
structure MtpAndHeight where
  mtp : Nat
  height : Nat
deriving DecidableEq

/-- `MtpAndHeight::new`: copy the 11 timestamps, sort them ascending
(`sort_unstable`), and take index 5 as the MTP (the Rust array of length 11
is modelled as a list; the theorems carry the length as a hypothesis). -/
def MtpAndHeight.new (height : Nat) (timestamps : List Nat) : MtpAndHeight :=
  let mtp_timestamps := timestamps.mergeSort (fun a b => decide (a ≤ b))
  { mtp := mtp_timestamps.getD 5 0, height := height }

/-!
## Theorems settling the claims
-/

/-- C5: for every `Address`, `script_pubkey` is total (a plain function in
this model) and produces exactly the fixed template selected by the
address type: `OP_DUP OP_HASH160 push(hash) OP_EQUALVERIFY OP_CHECKSIG`
for `PubkeyHash`, `OP_HASH160 push(hash) OP_EQUAL` for `ScriptHash`. -/
theorem script_pubkey_shapes (net : Network) (h : List Nat) :
    Address.script_pubkey ⟨AddressType.PubkeyHash, net, h⟩
      = [ScriptElem.op Opcode.OP_DUP, ScriptElem.op Opcode.OP_HASH160,
         ScriptElem.push h, ScriptElem.op Opcode.OP_EQUALVERIFY,
         ScriptElem.op Opcode.OP_CHECKSIG]
    ∧ Address.script_pubkey ⟨AddressType.ScriptHash, net, h⟩
      = [ScriptElem.op Opcode.OP_HASH160, ScriptElem.push h,
         ScriptElem.op Opcode.OP_EQUAL] :=
  ⟨rfl, rfl⟩

/-- C6: the private-key layout is the network version byte (128 for the
main network, 239 for the test network) followed by the secret bytes,
followed by a trailing `1` byte exactly when `compressed`; for a 32-byte
secret its length is 34 when compressed and 33 otherwise. -/
theorem privkey_layout_shape (c : Bool) (net : Network) (s : List Nat)
    (hs : s.length = 32) :
    Privkey.base58_layout ⟨c, Network.Bitcoin, s⟩
      = 128 :: (s ++ if c then [1] else [])
    ∧ Privkey.base58_layout ⟨c, Network.Testnet, s⟩
      = 239 :: (s ++ if c then [1] else [])
    ∧ (Privkey.base58_layout ⟨c, net, s⟩).length = if c then 34 else 33 := by
  refine ⟨rfl, rfl, ?_⟩
  cases c <;> cases net <;> simp [Privkey.base58_layout, hs]

/-- C6 witness: concrete instance discharging the length hypothesis. -/
theorem privkey_layout_shape_witness :
    Privkey.base58_layout ⟨true, Network.Bitcoin, List.replicate 32 7⟩
      = 128 :: (List.replicate 32 7 ++ [1])
    ∧ Privkey.base58_layout ⟨true, Network.Testnet, List.replicate 32 7⟩
      = 239 :: (List.replicate 32 7 ++ [1])
    ∧ (Privkey.base58_layout ⟨true, Network.Bitcoin, List.replicate 32 7⟩).length = 34 :=
  privkey_layout_shape true Network.Bitcoin (List.replicate 32 7) (by decide)

/-- C7: `to_address` forwards the secret to the external derivation
capability; on failure the result is the wrapped curve error (the spec's
`CurveDerivationFailed`, `Error::Secp` in the source), on success it is
exactly `Address::from_key` on the key's network, the derived public key
and the compression flag — so a successful result always has type
`PubkeyHash`. -/
theorem to_address_spec {PK E : Type} (from_secret_key : List Nat → Except E PK)
    (serialize_vec : PK → Bool → List Nat) (hash160_from_data : List Nat → List Nat)
    (p : Privkey) :
    (∀ e, from_secret_key p.key = Except.error e →
      Privkey.to_address from_secret_key serialize_vec hash160_from_data p
        = Except.error (AddressError.Secp e))
    ∧ (∀ k, from_secret_key p.key = Except.ok k →
      Privkey.to_address from_secret_key serialize_vec hash160_from_data p
        = Except.ok (Address.from_key hash160_from_data serialize_vec p.network k p.compressed))
    ∧ (∀ a, Privkey.to_address from_secret_key serialize_vec hash160_from_data p
        = Except.ok a → a.ty = AddressType.PubkeyHash) := by
  refine ⟨?_, ?_, ?_⟩
  · intro e he
    simp [Privkey.to_address, he]
  · intro k hk
    simp [Privkey.to_address, hk]
  · intro a ha
    cases hfk : from_secret_key p.key with
    | error e => simp [Privkey.to_address, hfk] at ha
    | ok k =>
        simp [Privkey.to_address, hfk] at ha
        subst ha
        rfl

/-- C7 witness: a failing and a succeeding derivation capability, applied
to a concrete key. -/
theorem to_address_spec_witness :
    Privkey.to_address (fun _ => (Except.error () : Except Unit Unit))
        (fun (_ : Unit) (_ : Bool) => ([] : List Nat)) (fun _ => [])
        ⟨false, Network.Bitcoin, []⟩
      = Except.error (AddressError.Secp ())
    ∧ Privkey.to_address (fun _ => (Except.ok () : Except Unit Unit))
        (fun (_ : Unit) (_ : Bool) => ([] : List Nat)) (fun _ => [])
        ⟨false, Network.Bitcoin, []⟩
      = Except.ok ⟨AddressType.PubkeyHash, Network.Bitcoin, []⟩ :=
  ⟨(to_address_spec (fun _ => (Except.error () : Except Unit Unit))
      (fun (_ : Unit) (_ : Bool) => ([] : List Nat)) (fun _ => [])
      ⟨false, Network.Bitcoin, []⟩).1 () rfl,
   (to_address_spec (fun _ => (Except.ok () : Except Unit Unit))
      (fun (_ : Unit) (_ : Bool) => ([] : List Nat)) (fun _ => [])
      ⟨false, Network.Bitcoin, []⟩).2.1 () rfl⟩

/-- C1: layout-level round-trip — decoding the encoded layout of any
20-byte-hash `Address` returns the same address, and decoding the encoded
layout of any `Privkey` whose 32-byte secret is a valid curve scalar
returns the same key. -/
theorem base58_layout_roundtrip (a : Address) (p : Privkey)
    (ha : a.hash.length = 20) (hk : p.key.length = 32)
    (hv : validScalar p.key = true) :
    Address.from_base58_layout a.base58_layout = Except.ok a
    ∧ Privkey.from_base58_layout p.base58_layout = Except.ok p := by
  constructor
  · obtain ⟨ty, net, hash⟩ := a
    simp only [Address.hash] at ha
    cases ty <;> cases net <;>
      simp [Address.base58_layout, Address.from_base58_layout, ha]
  · obtain ⟨c, net, key⟩ := p
    simp only [Privkey.key] at hk
    cases c <;> cases net <;>
      simp [Privkey.base58_layout, Privkey.from_base58_layout, hk, hv,
        List.take_left' hk, List.take_of_length_le (Nat.le_of_eq hk)]

/-- C1 witness: concrete round-trips discharging the hypotheses. -/
theorem base58_layout_roundtrip_witness :
    Address.from_base58_layout
        (Address.base58_layout ⟨AddressType.ScriptHash, Network.Testnet, List.replicate 20 9⟩)
      = Except.ok ⟨AddressType.ScriptHash, Network.Testnet, List.replicate 20 9⟩
    ∧ Privkey.from_base58_layout
        (Privkey.base58_layout ⟨true, Network.Testnet, List.replicate 31 0 ++ [1]⟩)
      = Except.ok ⟨true, Network.Testnet, List.replicate 31 0 ++ [1]⟩ :=
  base58_layout_roundtrip ⟨AddressType.ScriptHash, Network.Testnet, List.replicate 20 9⟩
    ⟨true, Network.Testnet, List.replicate 31 0 ++ [1]⟩
    (by decide) (by decide) (by decide)

/-- C2: encode and decode use the identical fixed version-byte table.
Encoding puts 0/5/111/196 first for the four (network, type) address
combinations and 128/239 for main/test private keys; decoding a
well-formed payload whose first byte is one of these values recovers
exactly the (network, type) pair — or the network, for private keys —
that encodes to that byte. -/
theorem version_byte_table (c : Bool) (h s : List Nat)
    (hh : h.length = 20) (hs : s.length = 32) (hv : validScalar s = true) :
    (Address.base58_layout ⟨AddressType.PubkeyHash, Network.Bitcoin, h⟩).headD 0 = 0
    ∧ (Address.base58_layout ⟨AddressType.ScriptHash, Network.Bitcoin, h⟩).headD 0 = 5
    ∧ (Address.base58_layout ⟨AddressType.PubkeyHash, Network.Testnet, h⟩).headD 0 = 111
    ∧ (Address.base58_layout ⟨AddressType.ScriptHash, Network.Testnet, h⟩).headD 0 = 196
    ∧ (Privkey.base58_layout ⟨c, Network.Bitcoin, s⟩).headD 0 = 128
    ∧ (Privkey.base58_layout ⟨c, Network.Testnet, s⟩).headD 0 = 239
    ∧ Address.from_base58_layout (0 :: h)
      = Except.ok ⟨AddressType.PubkeyHash, Network.Bitcoin, h⟩
    ∧ Address.from_base58_layout (5 :: h)
      = Except.ok ⟨AddressType.ScriptHash, Network.Bitcoin, h⟩
    ∧ Address.from_base58_layout (111 :: h)
      = Except.ok ⟨AddressType.PubkeyHash, Network.Testnet, h⟩
    ∧ Address.from_base58_layout (196 :: h)
      = Except.ok ⟨AddressType.ScriptHash, Network.Testnet, h⟩
    ∧ Privkey.from_base58_layout (128 :: s) = Except.ok ⟨false, Network.Bitcoin, s⟩
    ∧ Privkey.from_base58_layout (239 :: s) = Except.ok ⟨false, Network.Testnet, s⟩
    ∧ Privkey.from_base58_layout (128 :: s ++ [1]) = Except.ok ⟨true, Network.Bitcoin, s⟩
    ∧ Privkey.from_base58_layout (239 :: s ++ [1]) = Except.ok ⟨true, Network.Testnet, s⟩ := by
  refine ⟨rfl, rfl, rfl, rfl, rfl, rfl, ?_, ?_, ?_, ?_, ?_, ?_, ?_, ?_⟩ <;>
    simp [Address.from_base58_layout, Privkey.from_base58_layout, hh, hs, hv,
      List.take_left' hs, List.take_of_length_le (Nat.le_of_eq hs)]

/-- C2 witness: concrete instantiation discharging the hypotheses. -/
theorem version_byte_table_witness :
    (Address.base58_layout ⟨AddressType.PubkeyHash, Network.Bitcoin, List.replicate 20 3⟩).headD 0 = 0
    ∧ (Address.base58_layout ⟨AddressType.ScriptHash, Network.Bitcoin, List.replicate 20 3⟩).headD 0 = 5
    ∧ (Address.base58_layout ⟨AddressType.PubkeyHash, Network.Testnet, List.replicate 20 3⟩).headD 0 = 111
    ∧ (Address.base58_layout ⟨AddressType.ScriptHash, Network.Testnet, List.replicate 20 3⟩).headD 0 = 196
    ∧ (Privkey.base58_layout ⟨false, Network.Bitcoin, List.replicate 31 0 ++ [2]⟩).headD 0 = 128
    ∧ (Privkey.base58_layout ⟨false, Network.Testnet, List.replicate 31 0 ++ [2]⟩).headD 0 = 239
    ∧ Address.from_base58_layout (0 :: List.replicate 20 3)
      = Except.ok ⟨AddressType.PubkeyHash, Network.Bitcoin, List.replicate 20 3⟩
    ∧ Address.from_base58_layout (5 :: List.replicate 20 3)
      = Except.ok ⟨AddressType.ScriptHash, Network.Bitcoin, List.replicate 20 3⟩
    ∧ Address.from_base58_layout (111 :: List.replicate 20 3)
      = Except.ok ⟨AddressType.PubkeyHash, Network.Testnet, List.replicate 20 3⟩
    ∧ Address.from_base58_layout (196 :: List.replicate 20 3)
      = Except.ok ⟨AddressType.ScriptHash, Network.Testnet, List.replicate 20 3⟩
    ∧ Privkey.from_base58_layout (128 :: (List.replicate 31 0 ++ [2]))
      = Except.ok ⟨false, Network.Bitcoin, List.replicate 31 0 ++ [2]⟩
    ∧ Privkey.from_base58_layout (239 :: (List.replicate 31 0 ++ [2]))
      = Except.ok ⟨false, Network.Testnet, List.replicate 31 0 ++ [2]⟩
    ∧ Privkey.from_base58_layout (128 :: (List.replicate 31 0 ++ [2]) ++ [1])
      = Except.ok ⟨true, Network.Bitcoin, List.replicate 31 0 ++ [2]⟩
    ∧ Privkey.from_base58_layout (239 :: (List.replicate 31 0 ++ [2]) ++ [1])
      = Except.ok ⟨true, Network.Testnet, List.replicate 31 0 ++ [2]⟩ :=
  version_byte_table false (List.replicate 20 3) (List.replicate 31 0 ++ [2])
    (by decide) (by decide) (by decide)

/-- C3: complete case analysis of `Address::from_base58_layout` — a length
other than 21 gives `InvalidLength(len)`; at length 21 a first byte
outside the table gives `InvalidVersion(first byte)`; otherwise the result
is `Ok` of the address whose hash is bytes 1..21 and whose (network, type)
is the table entry for the first byte. -/
theorem address_decode_cases (d : List Nat) :
    (d.length ≠ 21 →
      Address.from_base58_layout d = Except.error (Base58Error.InvalidLength d.length))
    ∧ (d.length = 21 → d.headD 0 ≠ 0 → d.headD 0 ≠ 5 → d.headD 0 ≠ 111 → d.headD 0 ≠ 196 →
      Address.from_base58_layout d = Except.error (Base58Error.InvalidVersion [d.headD 0]))
    ∧ (d.length = 21 →
      (d.headD 0 = 0 →
        Address.from_base58_layout d = Except.ok ⟨AddressType.PubkeyHash, Network.Bitcoin, d.tail⟩)
      ∧ (d.headD 0 = 5 →
        Address.from_base58_layout d = Except.ok ⟨AddressType.ScriptHash, Network.Bitcoin, d.tail⟩)
      ∧ (d.headD 0 = 111 →
        Address.from_base58_layout d = Except.ok ⟨AddressType.PubkeyHash, Network.Testnet, d.tail⟩)
      ∧ (d.headD 0 = 196 →
        Address.from_base58_layout d = Except.ok ⟨AddressType.ScriptHash, Network.Testnet, d.tail⟩)) := by
  refine ⟨?_, ?_, ?_⟩
  · intro hlen
    simp [Address.from_base58_layout, hlen]
  · intro hlen h0 h5 h111 h196
    rw [List.headD_eq_head?_getD] at h0 h5 h111 h196
    simp [Address.from_base58_layout, hlen, h0, h5, h111, h196]
  · intro hlen
    refine ⟨?_, ?_, ?_, ?_⟩ <;> intro hv <;>
      rw [List.headD_eq_head?_getD] at hv <;>
      simp [Address.from_base58_layout, hlen, hv]

/-- C3 witness: the three branches hit at concrete payloads. -/
theorem address_decode_cases_witness :
    Address.from_base58_layout [0]
      = Except.error (Base58Error.InvalidLength 1)
    ∧ Address.from_base58_layout (7 :: List.replicate 20 0)
      = Except.error (Base58Error.InvalidVersion [7])
    ∧ Address.from_base58_layout (111 :: List.replicate 20 0)
      = Except.ok ⟨AddressType.PubkeyHash, Network.Testnet, List.replicate 20 0⟩ :=
  ⟨(address_decode_cases [0]).1 (by decide),
   (address_decode_cases (7 :: List.replicate 20 0)).2.1
     (by decide) (by decide) (by decide) (by decide) (by decide),
   ((address_decode_cases (111 :: List.replicate 20 0)).2.2 (by decide)).2.2.1 (by decide)⟩

/-- C4: complete case analysis of `Privkey::from_base58_layout` — length
33 decodes as uncompressed and 34 as compressed, any other length gives
`InvalidLength(len)`; then a first byte outside {128, 239} gives
`InvalidVersion(first byte)`; then bytes 1..33 become the secret, and an
invalid scalar gives the secret-key error (`Other`/"Secret key out of
range", the spec's `SecretKeyInvalid`); on success the key has exactly the
compression flag, network and secret determined that way. -/
theorem privkey_decode_cases (d : List Nat) :
    (d.length ≠ 33 → d.length ≠ 34 →
      Privkey.from_base58_layout d = Except.error (Base58Error.InvalidLength d.length))
    ∧ ((d.length = 33 ∨ d.length = 34) → d.headD 0 ≠ 128 → d.headD 0 ≠ 239 →
      Privkey.from_base58_layout d = Except.error (Base58Error.InvalidVersion [d.headD 0]))
    ∧ ((d.length = 33 ∨ d.length = 34) → (d.headD 0 = 128 ∨ d.headD 0 = 239) →
        validScalar ((d.drop 1).take 32) = false →
      Privkey.from_base58_layout d = Except.error (Base58Error.Other secretKeyOutOfRange))
    ∧ ((d.headD 0 = 128 ∨ d.headD 0 = 239) → validScalar ((d.drop 1).take 32) = true →
      (d.length = 33 →
        Privkey.from_base58_layout d
          = Except.ok ⟨false, if d.headD 0 = 128 then Network.Bitcoin else Network.Testnet,
              (d.drop 1).take 32⟩)
      ∧ (d.length = 34 →
        Privkey.from_base58_layout d
          = Except.ok ⟨true, if d.headD 0 = 128 then Network.Bitcoin else Network.Testnet,
              (d.drop 1).take 32⟩)) := by
  refine ⟨?_, ?_, ?_, ?_⟩
  · intro h33 h34
    simp [Privkey.from_base58_layout, h33, h34]
  · intro hlen h128 h239
    rw [List.headD_eq_head?_getD] at h128 h239
    rcases hlen with hlen | hlen <;>
      simp [Privkey.from_base58_layout, hlen, h128, h239]
  · intro hlen hver hbad
    rw [List.drop_one] at hbad
    rcases hlen with hlen | hlen <;> rcases hver with hver | hver <;>
      rw [List.headD_eq_head?_getD] at hver <;>
      simp [Privkey.from_base58_layout, hlen, hver, hbad]
  · intro hver hgood
    rw [List.drop_one] at hgood
    constructor <;> intro hlen <;> rcases hver with hver | hver <;>
      rw [List.headD_eq_head?_getD] at hver <;>
      simp [Privkey.from_base58_layout, hlen, hver, hgood]

/-- C4 witness: the four branches hit at concrete payloads. -/
theorem privkey_decode_cases_witness :
    Privkey.from_base58_layout [128]
      = Except.error (Base58Error.InvalidLength 1)
    ∧ Privkey.from_base58_layout (17 :: List.replicate 32 0)
      = Except.error (Base58Error.InvalidVersion [17])
    ∧ Privkey.from_base58_layout (128 :: List.replicate 32 0)
      = Except.error (Base58Error.Other secretKeyOutOfRange)
    ∧ Privkey.from_base58_layout (239 :: (List.replicate 31 0 ++ [5]))
      = Except.ok ⟨false, Network.Testnet, List.replicate 31 0 ++ [5]⟩ := by
  refine ⟨(privkey_decode_cases [128]).1 (by decide) (by decide),
    (privkey_decode_cases (17 :: List.replicate 32 0)).2.1
      (Or.inl (by decide)) (by decide) (by decide),
    (privkey_decode_cases (128 :: List.replicate 32 0)).2.2.1
      (Or.inl (by decide)) (Or.inl (by decide)) (by decide),
    ?_⟩
  have h := ((privkey_decode_cases (239 :: (List.replicate 31 0 ++ [5]))).2.2.2
    (Or.inr (by decide)) (by decide)).1 (by decide)
  simpa using h

/-- C8 counterexample: the claim quantifies over payloads of any length,
but the length check runs first — the 1-byte payload `[7]`, whose first
byte 7 is outside the address table, decodes to `InvalidLength 1`, not to
any `InvalidVersion` error (and likewise `[7]` against the private-key
decoder gives `InvalidLength 1`, not `InvalidVersion`). -/
theorem version_exhaustiveness_counterexample :
    Address.from_base58_layout [7] = Except.error (Base58Error.InvalidLength 1)
    ∧ (∀ bs, Address.from_base58_layout [7] ≠ Except.error (Base58Error.InvalidVersion bs))
    ∧ Privkey.from_base58_layout [7] = Except.error (Base58Error.InvalidLength 1)
    ∧ (∀ bs, Privkey.from_base58_layout [7] ≠ Except.error (Base58Error.InvalidVersion bs)) := by
  refine ⟨by rfl, ?_, by rfl, ?_⟩ <;>
    intro bs h <;> simp [Address.from_base58_layout, Privkey.from_base58_layout] at h

/-- C8 amended: for payloads of the length the decoder accepts (21 for
addresses; 33 or 34 for private keys), a first byte outside the version
table always yields `InvalidVersion`. -/
theorem version_exhaustiveness (d : List Nat) :
    (d.length = 21 → d.headD 0 ≠ 0 → d.headD 0 ≠ 5 → d.headD 0 ≠ 111 → d.headD 0 ≠ 196 →
      Address.from_base58_layout d = Except.error (Base58Error.InvalidVersion [d.headD 0]))
    ∧ ((d.length = 33 ∨ d.length = 34) → d.headD 0 ≠ 128 → d.headD 0 ≠ 239 →
      Privkey.from_base58_layout d = Except.error (Base58Error.InvalidVersion [d.headD 0])) := by
  constructor
  · intro hlen h0 h5 h111 h196
    rw [List.headD_eq_head?_getD] at h0 h5 h111 h196
    simp [Address.from_base58_layout, hlen, h0, h5, h111, h196]
  · intro hlen h128 h239
    rw [List.headD_eq_head?_getD] at h128 h239
    rcases hlen with hlen | hlen <;>
      simp [Privkey.from_base58_layout, hlen, h128, h239]

/-- C8 amended witness: unknown version bytes at the accepted lengths. -/
theorem version_exhaustiveness_witness :
    Address.from_base58_layout (42 :: List.replicate 20 0)
      = Except.error (Base58Error.InvalidVersion [42])
    ∧ Privkey.from_base58_layout (42 :: List.replicate 33 0)
      = Except.error (Base58Error.InvalidVersion [42]) :=
  ⟨(version_exhaustiveness (42 :: List.replicate 20 0)).1
      (by decide) (by decide) (by decide) (by decide) (by decide),
   (version_exhaustiveness (42 :: List.replicate 33 0)).2
      (Or.inr (by decide)) (by decide) (by decide)⟩

/-- C9: the private-key decoder never inspects the final byte of a 34-byte
payload — any suffix byte decodes as `compressed = true` with the same
secret, and re-encoding that key emits the canonical `1` suffix even when
the original suffix differed. -/
theorem privkey_suffix_byte_ignored (s : List Nat) (b : Nat)
    (hs : s.length = 32) (hv : validScalar s = true) :
    (Privkey.from_base58_layout (128 :: s ++ [b]) = Except.ok ⟨true, Network.Bitcoin, s⟩
      ∧ Privkey.base58_layout ⟨true, Network.Bitcoin, s⟩ = 128 :: s ++ [1])
    ∧ (Privkey.from_base58_layout (239 :: s ++ [b]) = Except.ok ⟨true, Network.Testnet, s⟩
      ∧ Privkey.base58_layout ⟨true, Network.Testnet, s⟩ = 239 :: s ++ [1]) := by
  refine ⟨⟨?_, rfl⟩, ⟨?_, rfl⟩⟩ <;>
    simp [Privkey.from_base58_layout, hs, List.take_left' hs]
  · exact hv
  · exact hv

/-- C9 witness: a 34-byte payload whose suffix byte is 99, not 1. -/
theorem privkey_suffix_byte_ignored_witness :
    (Privkey.from_base58_layout (128 :: (List.replicate 31 0 ++ [1]) ++ [99])
        = Except.ok ⟨true, Network.Bitcoin, List.replicate 31 0 ++ [1]⟩
      ∧ Privkey.base58_layout ⟨true, Network.Bitcoin, List.replicate 31 0 ++ [1]⟩
        = 128 :: (List.replicate 31 0 ++ [1]) ++ [1])
    ∧ (Privkey.from_base58_layout (239 :: (List.replicate 31 0 ++ [1]) ++ [99])
        = Except.ok ⟨true, Network.Testnet, List.replicate 31 0 ++ [1]⟩
      ∧ Privkey.base58_layout ⟨true, Network.Testnet, List.replicate 31 0 ++ [1]⟩
        = 239 :: (List.replicate 31 0 ++ [1]) ++ [1]) :=
  privkey_suffix_byte_ignored (List.replicate 31 0 ++ [1]) 99 (by decide) (by decide)

/-- In a list sorted by `≤`, earlier elements are no larger. -/
theorem sorted_getElem_le_getElem {l : List Nat} (hs : List.Sorted (· ≤ ·) l)
    (i j : Nat) (hij : i ≤ j) (hi : i < l.length) (hj : j < l.length) :
    l[i] ≤ l[j] := by
  rcases Nat.lt_or_ge i j with hlt | hge
  · exact List.pairwise_iff_getElem.mp hs i j _ _ hlt
  · have : i = j := Nat.le_antisymm hij hge
    subst this
    exact Nat.le_refl _

/-- C10: `MtpAndHeight::new` stores the given height unchanged, and its
`mtp` is the 6th-smallest (median) of the 11 timestamps — it is one of the
timestamps, at least 6 of them (with multiplicity) are `≤` it, and at most
5 of them are `<` it; consequently the result is invariant under any
permutation of the timestamp list (the Rust caller's array is passed by
value and never observed mutated). -/
theorem mtp_and_height_new_spec (h : Nat) (l l2 : List Nat)
    (hl : l.length = 11) (hperm : l.Perm l2) :
    (MtpAndHeight.new h l).height = h
    ∧ (MtpAndHeight.new h l).mtp ∈ l
    ∧ 6 ≤ l.countP (fun t => decide (t ≤ (MtpAndHeight.new h l).mtp))
    ∧ l.countP (fun t => decide (t < (MtpAndHeight.new h l).mtp)) ≤ 5
    ∧ MtpAndHeight.new h l2 = MtpAndHeight.new h l := by
  have hsp : (l.mergeSort (fun a b => decide (a ≤ b))).Perm l := List.mergeSort_perm l _
  have hss : List.Sorted (· ≤ ·) (l.mergeSort (fun a b => decide (a ≤ b))) :=
    List.sorted_mergeSort' l
  set s := l.mergeSort (fun a b => decide (a ≤ b)) with hs_def
  have hslen : s.length = 11 := by rw [hsp.length_eq, hl]
  have h5 : 5 < s.length := by omega
  have hmtp : (MtpAndHeight.new h l).mtp = s[5] := by
    simp only [MtpAndHeight.new, ← hs_def]
    simp [List.getD_eq_getElem?_getD, List.getElem?_eq_getElem h5]
  refine ⟨rfl, ?_, ?_, ?_, ?_⟩
  · rw [hmtp]
    exact hsp.subset (List.getElem_mem h5)
  · rw [hmtp, ← hsp.countP_eq]
    have hsplit : s.countP (fun t => decide (t ≤ s[5]))
        = (s.take 6).countP (fun t => decide (t ≤ s[5]))
          + (s.drop 6).countP (fun t => decide (t ≤ s[5])) := by
      rw [← List.countP_append, List.take_append_drop]
    have htake : (s.take 6).countP (fun t => decide (t ≤ s[5])) = (s.take 6).length := by
      apply List.countP_eq_length.mpr
      intro x hx
      obtain ⟨i, hi, hix⟩ := List.mem_iff_getElem.mp hx
      have hi6 : i < 6 := by
        rw [List.length_take] at hi
        omega
      have hilen : i < s.length := by omega
      have hxi : x = s[i] := by
        rw [← hix]
        exact List.getElem_take s
      simp only [hxi, decide_eq_true_eq]
      exact sorted_getElem_le_getElem hss i 5 (by omega) hilen h5
    have hlen6 : (s.take 6).length = 6 := by
      rw [List.length_take]
      omega
    omega
  · rw [hmtp, ← hsp.countP_eq]
    have hsplit : s.countP (fun t => decide (t < s[5]))
        = (s.take 5).countP (fun t => decide (t < s[5]))
          + (s.drop 5).countP (fun t => decide (t < s[5])) := by
      rw [← List.countP_append, List.take_append_drop]
    have htake : (s.take 5).countP (fun t => decide (t < s[5])) ≤ 5 := by
      calc (s.take 5).countP (fun t => decide (t < s[5]))
          ≤ (s.take 5).length := List.countP_le_length _
        _ ≤ 5 := by rw [List.length_take]; omega
    have hdrop : (s.drop 5).countP (fun t => decide (t < s[5])) = 0 := by
      apply List.countP_eq_zero.mpr
      intro x hx
      obtain ⟨i, hi, hix⟩ := List.mem_iff_getElem.mp hx
      have hi' : 5 + i < s.length := by
        rw [List.length_drop] at hi
        omega
      have hxi : x = s[5 + i] := by
        rw [← hix, List.getElem_drop]
      simp only [hxi, decide_eq_true_eq, Nat.not_lt]
      exact sorted_getElem_le_getElem hss 5 (5 + i) (Nat.le_add_right 5 i) h5 hi'
    omega
  · have hsp2 : (l2.mergeSort (fun a b => decide (a ≤ b))).Perm l2 :=
      List.mergeSort_perm l2 _
    have hss2 : List.Sorted (· ≤ ·) (l2.mergeSort (fun a b => decide (a ≤ b))) :=
      List.sorted_mergeSort' l2
    have heq : l2.mergeSort (fun a b => decide (a ≤ b)) = s :=
      List.eq_of_perm_of_sorted (hsp2.trans (hperm.symm.trans hsp.symm)) hss2 hss
    simp only [MtpAndHeight.new, ← hs_def, heq]

/-- C10 witness: an 11-element timestamp list and a shuffled copy. -/
theorem mtp_and_height_new_spec_witness :
    (MtpAndHeight.new 500 [9, 2, 7, 4, 11, 6, 1, 8, 3, 10, 5]).height = 500
    ∧ (MtpAndHeight.new 500 [9, 2, 7, 4, 11, 6, 1, 8, 3, 10, 5]).mtp
        ∈ [9, 2, 7, 4, 11, 6, 1, 8, 3, 10, 5]
    ∧ 6 ≤ List.countP
        (fun t => decide (t ≤ (MtpAndHeight.new 500 [9, 2, 7, 4, 11, 6, 1, 8, 3, 10, 5]).mtp))
        [9, 2, 7, 4, 11, 6, 1, 8, 3, 10, 5]
    ∧ List.countP
        (fun t => decide (t < (MtpAndHeight.new 500 [9, 2, 7, 4, 11, 6, 1, 8, 3, 10, 5]).mtp))
        [9, 2, 7, 4, 11, 6, 1, 8, 3, 10, 5] ≤ 5
    ∧ MtpAndHeight.new 500 [1, 2, 3, 4, 5, 6, 7, 8, 9, 10, 11]
        = MtpAndHeight.new 500 [9, 2, 7, 4, 11, 6, 1, 8, 3, 10, 5] :=
  mtp_and_height_new_spec 500 [9, 2, 7, 4, 11, 6, 1, 8, 3, 10, 5]
    [1, 2, 3, 4, 5, 6, 7, 8, 9, 10, 11] (by decide) (by decide)
